import Mathlib

/-!
Verification development for the bdk-cli label store
(`src/label_manager.rs`): a durable store of BIP-329 labels with
upsert-by-reference semantics and atomic replace-on-save persistence.

The store itself (`LabelManager`) is embedded directly from the source.
Its external collaborators — the `bip329` label collection and codec and
the filesystem — are not part of this repository, so they are modelled
from the spec's stated contract (see the individual doc comments).
Paths are modelled as lists of components, the filesystem as a map from
paths to file states, and the codec as the evident encode/decode pair on
label collections, with decode failures represented explicitly.
-/

namespace BdkLabels

/-- Modelled from the spec: a label reference is a discriminated
identifier, one variant per annotatable entity kind (at minimum address
and transaction); equal iff same variant and same identifier value.
Identifiers are modelled as opaque strings. -/
inductive LabelRef where
  | address (a : String)
  | tx (t : String)
deriving DecidableEq, Repr

/-- Modelled from the spec: a label record is a variant keyed by the same
discriminant as the reference, carrying the reference value, an optional
text annotation, and variant-specific optional metadata (an origin field
on transaction records, as in the source's `TransactionRecord`). -/
inductive Label where
  | address (ref_ : String) (text : Option String)
  | tx (ref_ : String) (text : Option String) (origin : Option String)
deriving DecidableEq, Repr

/-- The reference of a record (the source's `Label::ref_()`). -/
def Label.ref_ : Label → LabelRef
  | .address a _ => .address a
  | .tx t _ _ => .tx t

/-- The optional text annotation of a record (the source's `Label::label()`). -/
def Label.label : Label → Option String
  | .address _ s => s
  | .tx _ s _ => s

/-- The label collection type of the external bip329 crate: an ordered
container of label records. -/
abbrev Labels := List Label

/-- Modelled from the spec: the external collection's upsert. Inserts the
record if no existing record shares its reference; otherwise replaces the
(first) existing record for that reference in place. -/
def Labels.set_label : Labels → Label → Labels
  | [], l => [l]
  | x :: xs, l => if x.ref_ = l.ref_ then l :: xs else x :: Labels.set_label xs l

/-- A filesystem path, as a list of components. -/
abbrev Path := List String

/-- `Path::join` with a single extra component. -/
def Path.join (p : Path) (name : String) : Path := List.append p [name]

/-- `Path::parent`: drop the final component; none for the empty path. -/
def Path.parent (p : Path) : Option Path :=
  if p = ([] : List String) then none else some (List.dropLast p)

/-- `Path::display`, for error messages. -/
def Path.display (p : Path) : String := String.intercalate "/" p

/-- The I/O error kinds the source distinguishes (`std::io::ErrorKind`):
`NotFound` against everything else. -/
inductive ErrorKind where
  | notFound
  | permissionDenied
  | other
deriving DecidableEq, Repr

/-- Modelled from the spec: decode failures of the external codec — a file
read error carrying its I/O error kind, or malformed content. -/
inductive ParseError where
  | fileReadError (kind : ErrorKind)
  | malformedRecord
deriving DecidableEq, Repr

/-- Display string of a decode failure, used inside the store's error
messages (the underlying cause). -/
def ParseError.msg : ParseError → String
  | .fileReadError .notFound => "file read error: not found"
  | .fileReadError .permissionDenied => "file read error: permission denied"
  | .fileReadError .other => "file read error"
  | .malformedRecord => "malformed label record"

/-- The observable state of one file on disk: a complete valid encoding of
a label collection, malformed content, or a file whose read fails with the
given I/O error kind. -/
inductive FileState where
  | encoded (labels : Labels)
  | malformed
  | unreadable (kind : ErrorKind)
deriving DecidableEq, Repr

/-- The filesystem: a map from paths to file states (`none` = absent). -/
def FS := Path → Option FileState

/-- Point update of the filesystem. -/
def FS.set (fs : FS) (p : Path) (v : Option FileState) : FS :=
  fun q => if q = p then v else fs q

/-- `Path::exists` against a filesystem. -/
def FS.exists (fs : FS) (p : Path) : Bool := (fs p).isSome

/-- Modelled from the spec: the external codec's decode,
`Labels::try_from_file` — absent file is a `NotFound` read error,
malformed content a parse failure, a complete encoding decodes to the
collection it encodes. -/
def Labels.try_from_file (fs : FS) (p : Path) : Except ParseError Labels :=
  match fs p with
  | none => .error (.fileReadError .notFound)
  | some (.encoded ls) => .ok ls
  | some .malformed => .error .malformedRecord
  | some (.unreadable k) => .error (.fileReadError k)

/-- The error type of the store (`BDKCliError::LabelError`). -/
inductive BDKCliError where
  | labelError (msg : String)
deriving DecidableEq, Repr

/-- The label store: an in-memory collection plus its backing file path
(the source's `LabelManager` struct). -/
structure LabelManager where
  labels : Labels
  file_path : Path
deriving DecidableEq, Repr

/-- `LabelManager::new`: resolve `<dir>/labels.jsonl`, decode it; a
`NotFound` read error yields an empty store, any other decode failure a
load error naming the path and the cause. -/
def LabelManager.new (fs : FS) (wallet_data_dir : Path) :
    Except BDKCliError LabelManager :=
  let file_path := wallet_data_dir.join "labels.jsonl"
  match Labels.try_from_file fs file_path with
  | .ok loaded_labels => .ok ⟨loaded_labels, file_path⟩
  | .error (.fileReadError .notFound) => .ok ⟨[], file_path⟩
  | .error e =>
      .error (.labelError
        ("Failed to load labels from " ++ file_path.display ++ ": " ++ e.msg))

/-- `LabelManager::set_label`: delegate to the collection's upsert. -/
def LabelManager.set_label (lm : LabelManager) (label_to_set : Label) :
    LabelManager :=
  ⟨lm.labels.set_label label_to_set, lm.file_path⟩

/-- `LabelManager::get_label_by_ref`: first record in iteration order
whose reference equals the argument. -/
def LabelManager.get_label_by_ref (lm : LabelManager) (item_ref : LabelRef) :
    Option Label :=
  lm.labels.find? (fun l => l.ref_ == item_ref)

/-- `LabelManager::get_label_text_by_ref`: the record's text annotation,
when the record exists and its text is present. -/
def LabelManager.get_label_text_by_ref (lm : LabelManager) (item_ref : LabelRef) :
    Option String :=
  (lm.get_label_by_ref item_ref).bind (fun l => l.label.map (fun s => s))

/-- `LabelManager::get_all_labels`. -/
def LabelManager.get_all_labels (lm : LabelManager) : Labels := lm.labels

/-- `LabelManager::import_labels`: upsert each incoming record in order,
counting every record processed. Returns the updated store and the count. -/
def LabelManager.import_labels (lm : LabelManager) (new_labels : Labels) :
    LabelManager × Nat :=
  new_labels.foldl
    (fun acc label_to_import => (acc.1.set_label label_to_import, acc.2 + 1))
    (lm, 0)

/-- Fault-injection switches for the filesystem steps of `save`: creation
of the temporary file, the codec's encode into it, the atomic rename, and
the best-effort removal after a failed rename. -/
structure Faults where
  createFails : Bool
  exportFails : Bool
  renameFails : Bool
  removeFails : Bool
deriving DecidableEq, Repr

/-- No fault injected: every filesystem step succeeds. -/
def noFaults : Faults := ⟨false, false, false, false⟩

/-- The temporary file name `.labels.jsonl.tmp.<millisecond-timestamp>`. -/
def tmpFileName (now : Nat) : String := ".labels.jsonl.tmp." ++ toString now

/-- `LabelManager::save`, with the current time and the fault switches
made explicit. Returns the result together with the filesystem after the
call. Fast path: empty collection and absent backing file is a no-op.
Otherwise: resolve the parent directory, create the temporary file
(leaving an empty file), encode the whole collection into it (a failure
leaves the temporary file partially written), then atomically rename it
onto the canonical path; a failed rename triggers best-effort removal of
the temporary file whose own failure is ignored. -/
def LabelManager.save (lm : LabelManager) (fs : FS) (f : Faults) (now : Nat) :
    Except BDKCliError Unit × FS :=
  if lm.labels.isEmpty && !(fs.exists lm.file_path) then
    (.ok (), fs)
  else
    match lm.file_path.parent with
    | none =>
        (.error (.labelError
          ("Cannot get parent directory for label file: "
            ++ lm.file_path.display)), fs)
    | some parent_dir =>
        let temp_path := parent_dir.join (tmpFileName now)
        if f.createFails then
          (.error (.labelError
            ("Failed to create temporary label file " ++ temp_path.display)), fs)
        else
          let fs1 := FS.set fs temp_path (some (.encoded []))
          if f.exportFails then
            (.error (.labelError
              ("Failed to export labels to temporary file "
                ++ temp_path.display)),
             FS.set fs1 temp_path (some .malformed))
          else
            let fs2 := FS.set fs1 temp_path (some (.encoded lm.labels))
            if f.renameFails then
              (.error (.labelError
                ("Failed to rename temporary label file " ++ temp_path.display
                  ++ " to " ++ lm.file_path.display)),
               if f.removeFails then fs2 else FS.set fs2 temp_path none)
            else
              (.ok (),
               FS.set (FS.set fs2 lm.file_path (fs2 temp_path)) temp_path none)

/-- A store freshly opened on `dir` and then fed a sequence of
`set_label` calls, in order. -/
def buildStore (dir : Path) (sets : List Label) : LabelManager :=
  sets.foldl LabelManager.set_label ⟨[], dir.join "labels.jsonl"⟩

/-! ### Basic lemmas about the filesystem model and paths -/

theorem FS.set_self (fs : FS) (p : Path) (v : Option FileState) :
    FS.set fs p v p = v := by
  simp [FS.set]

theorem FS.set_other (fs : FS) (p : Path) (v : Option FileState) (q : Path)
    (h : q ≠ p) : FS.set fs p v q = fs q := by
  simp [FS.set, h]

theorem Path.parent_join (dir : Path) (name : String) :
    (dir.join name).parent = some dir := by
  have hne : dir ++ [name] ≠ ([] : List String) := by
    intro h
    have := congrArg List.length h
    simp at this
  show (if dir ++ [name] = ([] : List String) then none
        else some (dir ++ [name]).dropLast) = some dir
  rw [if_neg hne, List.dropLast_concat]

theorem tmpFileName_ne (now : Nat) : tmpFileName now ≠ "labels.jsonl" := by
  intro h
  have hl := congrArg String.length h
  rw [tmpFileName, String.length_append] at hl
  have h18 : (".labels.jsonl.tmp." : String).length = 18 := rfl
  have h12 : ("labels.jsonl" : String).length = 12 := rfl
  rw [h18, h12] at hl
  omega

theorem tmp_path_ne (dir : Path) (now : Nat) :
    dir.join (tmpFileName now) ≠ dir.join "labels.jsonl" := by
  intro h
  have h2 : List.append dir [tmpFileName now]
      = List.append dir ["labels.jsonl"] := h
  have h3 := List.append_cancel_left h2
  simp at h3
  exact tmpFileName_ne now h3

/-! ### Lemmas about the collection's upsert -/

theorem beq_ref_of_eq {a b : LabelRef} (h : a = b) : (a == b) = true := by
  simp [h]

theorem beq_ref_of_ne {a b : LabelRef} (h : ¬a = b) : (a == b) = false := by
  simpa using h

theorem find_set_label (xs : Labels) (l : Label) (r : LabelRef) :
    (xs.set_label l).find? (fun x => x.ref_ == r)
      = if l.ref_ = r then some l else xs.find? (fun x => x.ref_ == r) := by
  induction xs with
  | nil =>
      by_cases h : l.ref_ = r
      · simp [Labels.set_label, List.find?, beq_ref_of_eq h, h]
      · simp [Labels.set_label, List.find?, beq_ref_of_ne h, h]
  | cons x xs ih =>
      by_cases hx : x.ref_ = l.ref_
      · by_cases h : l.ref_ = r
        · simp [Labels.set_label, hx, List.find?, beq_ref_of_eq h, h]
        · have hxr : ¬(x.ref_ = r) := by rw [hx]; exact h
          simp [Labels.set_label, hx, List.find?, beq_ref_of_ne h,
            beq_ref_of_ne hxr, h]
      · by_cases hxr : x.ref_ = r
        · have h : ¬(l.ref_ = r) := by
            intro hlr
            exact hx (by rw [hxr, hlr])
          simp [Labels.set_label, hx, List.find?, beq_ref_of_eq hxr, h]
        · simp [Labels.set_label, hx, List.find?, beq_ref_of_ne hxr, ih]

theorem set_label_map_ref (xs : Labels) (l : Label) :
    (xs.set_label l).map Label.ref_
      = if l.ref_ ∈ xs.map Label.ref_ then xs.map Label.ref_
        else xs.map Label.ref_ ++ [l.ref_] := by
  induction xs with
  | nil => simp [Labels.set_label]
  | cons x xs ih =>
      by_cases hx : x.ref_ = l.ref_
      · simp [Labels.set_label, hx]
      · have hne : ¬(l.ref_ = x.ref_) := fun h => hx h.symm
        by_cases hm : l.ref_ ∈ xs.map Label.ref_ <;>
          simp [Labels.set_label, hx, hne, hm, ih]

theorem set_label_nodup (xs : Labels) (l : Label)
    (h : (xs.map Label.ref_).Nodup) :
    ((xs.set_label l).map Label.ref_).Nodup := by
  rw [set_label_map_ref]
  by_cases hm : l.ref_ ∈ xs.map Label.ref_
  · simpa [hm] using h
  · simp only [hm, if_false]
    rw [List.nodup_append]
    refine ⟨h, List.nodup_singleton _, ?_⟩
    intro a ha hal
    rw [List.mem_singleton] at hal
    exact hm (hal ▸ ha)

/-! ### Lemmas about folding `set_label` over a sequence of records -/

theorem foldl_set_label_labels (sets : List Label) (lm : LabelManager) :
    (sets.foldl LabelManager.set_label lm).labels
      = sets.foldl Labels.set_label lm.labels := by
  induction sets generalizing lm with
  | nil => rfl
  | cons s sets ih => simp [List.foldl, ih, LabelManager.set_label]

theorem foldl_set_label_path (sets : List Label) (lm : LabelManager) :
    (sets.foldl LabelManager.set_label lm).file_path = lm.file_path := by
  induction sets generalizing lm with
  | nil => rfl
  | cons s sets ih => simp [List.foldl, ih, LabelManager.set_label]

theorem find_foldl_set_label (sets : List Label) (init : Labels) (r : LabelRef) :
    (sets.foldl Labels.set_label init).find? (fun x => x.ref_ == r)
      = match sets.reverse.find? (fun x => x.ref_ == r) with
        | some x => some x
        | none => init.find? (fun x => x.ref_ == r) := by
  induction sets using List.reverseRecOn with
  | nil => simp
  | append_singleton sets l ih =>
      rw [List.foldl_append]
      simp only [List.foldl]
      rw [find_set_label]
      by_cases h : l.ref_ = r
      · simp [h]
      · have hb : (l.ref_ == r) = false := by
          simpa using h
        simp [List.find?, hb, ih, h]

theorem foldl_set_label_nodup (sets : List Label) (init : Labels)
    (h : (init.map Label.ref_).Nodup) :
    ((sets.foldl Labels.set_label init).map Label.ref_).Nodup := by
  induction sets generalizing init with
  | nil => exact h
  | cons s sets ih => exact ih _ (set_label_nodup _ _ h)

theorem import_labels_foldl (ns : Labels) (lm : LabelManager) (c : Nat) :
    ns.foldl (fun acc label_to_import =>
        (acc.1.set_label label_to_import, acc.2 + 1)) (lm, c)
      = (ns.foldl LabelManager.set_label lm, c + ns.length) := by
  induction ns generalizing lm c with
  | nil => simp
  | cons n ns ih =>
      rw [List.foldl_cons, List.foldl_cons, ih]
      refine Prod.ext rfl ?_
      show c + 1 + ns.length = c + (ns.length + 1)
      omega

/-! ### The claims -/

/-- Claim C1: starting from a freshly opened empty store, every sequence of
`set_label` calls yields a collection with at most one record per distinct
reference, and the record the store holds for a reference is the last record
set for that reference. -/
theorem C1_upsert_unique_last_wins (dir : Path) (sets : List Label)
    (lm0 : LabelManager)
    (h : LabelManager.new (fun _ => none) dir = Except.ok lm0) :
    (((sets.foldl LabelManager.set_label lm0).labels.map Label.ref_).Nodup) ∧
    ∀ r : LabelRef,
      (sets.foldl LabelManager.set_label lm0).get_label_by_ref r
        = sets.reverse.find? (fun l => l.ref_ == r) := by
  have hlm0 : lm0 = ⟨[], dir.join "labels.jsonl"⟩ := by
    have h2 : (⟨[], dir.join "labels.jsonl"⟩ : LabelManager) = lm0 := by
      simpa [LabelManager.new, Labels.try_from_file] using h
    exact h2.symm
  subst hlm0
  constructor
  · rw [foldl_set_label_labels]
    exact foldl_set_label_nodup sets [] (by simp)
  · intro r
    rw [LabelManager.get_label_by_ref, foldl_set_label_labels,
      find_foldl_set_label]
    cases hfind : sets.reverse.find? (fun x => x.ref_ == r) <;>
      simp [List.find?]

/-- Witness for C1: two upserts for the same address reference. -/
theorem C1_upsert_unique_last_wins_witness :
    ((([Label.address "a" (some "one"), Label.address "a" (some "two")].foldl
        LabelManager.set_label
        (⟨[], Path.join ["w"] "labels.jsonl"⟩ : LabelManager)).labels.map
          Label.ref_).Nodup) ∧
    ([Label.address "a" (some "one"), Label.address "a" (some "two")].foldl
        LabelManager.set_label
        (⟨[], Path.join ["w"] "labels.jsonl"⟩ : LabelManager)).get_label_by_ref
        (LabelRef.address "a")
      = [Label.address "a" (some "one"),
          Label.address "a" (some "two")].reverse.find?
          (fun l => l.ref_ == LabelRef.address "a") :=
  ⟨(C1_upsert_unique_last_wins ["w"]
      [Label.address "a" (some "one"), Label.address "a" (some "two")]
      ⟨[], Path.join ["w"] "labels.jsonl"⟩ rfl).1,
   (C1_upsert_unique_last_wins ["w"]
      [Label.address "a" (some "one"), Label.address "a" (some "two")]
      ⟨[], Path.join ["w"] "labels.jsonl"⟩ rfl).2 (LabelRef.address "a")⟩

/-- Claim C6: import returns the size of the incoming collection (overwrites
included), and afterwards every reference present in the incoming collection
resolves via lookup to the last incoming record processed for it. -/
theorem C6_import_count_and_precedence (lm : LabelManager) (ns : Labels) :
    (lm.import_labels ns).2 = ns.length ∧
    ∀ r : LabelRef, (∃ l ∈ ns, l.ref_ = r) →
      (lm.import_labels ns).1.get_label_by_ref r
        = ns.reverse.find? (fun l => l.ref_ == r) := by
  constructor
  · simp [LabelManager.import_labels, import_labels_foldl]
  · intro r hr
    rw [LabelManager.import_labels, import_labels_foldl]
    rw [LabelManager.get_label_by_ref, foldl_set_label_labels,
      find_foldl_set_label]
    rcases hr with ⟨l, hl, hlr⟩
    cases hfind : ns.reverse.find? (fun x => x.ref_ == r) with
    | none =>
        rw [List.find?_eq_none] at hfind
        have hmem : l ∈ ns.reverse := List.mem_reverse.mpr hl
        exact absurd (beq_ref_of_eq hlr) (by simpa using hfind l hmem)
    | some y => simp

/-- Witness for C6: importing two records for the same reference over an
existing record; the count is 2 and the second incoming record wins. -/
theorem C6_import_count_and_precedence_witness :
    ((⟨[Label.address "a" (some "old")], ["w", "labels.jsonl"]⟩ :
        LabelManager).import_labels
        [Label.address "a" (some "new1"), Label.address "a" (some "new2")]).2
      = 2 ∧
    (((⟨[Label.address "a" (some "old")], ["w", "labels.jsonl"]⟩ :
        LabelManager).import_labels
        [Label.address "a" (some "new1"),
          Label.address "a" (some "new2")]).1).get_label_by_ref
        (LabelRef.address "a")
      = [Label.address "a" (some "new1"),
          Label.address "a" (some "new2")].reverse.find?
          (fun l => l.ref_ == LabelRef.address "a") :=
  ⟨(C6_import_count_and_precedence
      ⟨[Label.address "a" (some "old")], ["w", "labels.jsonl"]⟩
      [Label.address "a" (some "new1"), Label.address "a" (some "new2")]).1,
   (C6_import_count_and_precedence
      ⟨[Label.address "a" (some "old")], ["w", "labels.jsonl"]⟩
      [Label.address "a" (some "new1"), Label.address "a" (some "new2")]).2
      (LabelRef.address "a") (by decide)⟩

/-- Claim C8: `get_label_text_by_ref` returns the text annotation exactly
when a record with the reference exists and its text field is present; it
returns nothing both when no record exists and when the record exists with
no text. -/
theorem C8_get_text_by_ref_spec (lm : LabelManager) (r : LabelRef) :
    (∀ t : String,
        lm.get_label_text_by_ref r = some t ↔
          ∃ l, lm.get_label_by_ref r = some l ∧ l.label = some t) ∧
    (lm.get_label_text_by_ref r = none ↔
        lm.get_label_by_ref r = none ∨
          ∃ l, lm.get_label_by_ref r = some l ∧ l.label = none) := by
  constructor
  · intro t
    cases hg : lm.get_label_by_ref r with
    | none => simp [LabelManager.get_label_text_by_ref, hg]
    | some l =>
        cases hl : l.label <;>
          simp [LabelManager.get_label_text_by_ref, hg, hl]
  · cases hg : lm.get_label_by_ref r with
    | none => simp [LabelManager.get_label_text_by_ref, hg]
    | some l =>
        cases hl : l.label <;>
          simp [LabelManager.get_label_text_by_ref, hg, hl]

/-- Claim C10: lookup returns the first record in iteration order whose
reference matches; construction keeps duplicates decoded from the backing
file verbatim, so the earliest duplicate shadows later ones. -/
theorem C10_lookup_first_match (dir : Path) (xs ys zs : Labels) (a b : Label)
    (r : LabelRef) (ha : a.ref_ = r) (_hb : b.ref_ = r)
    (hxs : ∀ x ∈ xs, x.ref_ ≠ r) :
    LabelManager.new
        (fun q => if q = dir.join "labels.jsonl"
          then some (FileState.encoded (xs ++ a :: ys ++ b :: zs)) else none)
        dir
      = Except.ok ⟨xs ++ a :: ys ++ b :: zs, dir.join "labels.jsonl"⟩ ∧
    (LabelManager.mk (xs ++ a :: ys ++ b :: zs)
        (dir.join "labels.jsonl")).get_label_by_ref r = some a := by
  constructor
  · simp [LabelManager.new, Labels.try_from_file]
  · rw [LabelManager.get_label_by_ref]
    have hxs0 : xs.find? (fun x => x.ref_ == r) = none := by
      rw [List.find?_eq_none]
      intro x hx
      simp [beq_ref_of_ne (hxs x hx)]
    rw [List.find?_append, List.find?_append, hxs0]
    simp [List.find?, beq_ref_of_eq ha]

/-- Witness for C10: a decoded file with two records for the same address
reference; lookup returns the earlier one. -/
theorem C10_lookup_first_match_witness :
    LabelManager.new
        (fun q => if q = Path.join ["w"] "labels.jsonl"
          then some (FileState.encoded
            ([Label.tx "t" none none] ++ Label.address "a" (some "first") ::
              [] ++ Label.address "a" (some "second") :: [])) else none)
        ["w"]
      = Except.ok ⟨[Label.tx "t" none none] ++
          Label.address "a" (some "first") :: [] ++
          Label.address "a" (some "second") :: [],
          Path.join ["w"] "labels.jsonl"⟩ ∧
    (LabelManager.mk
        ([Label.tx "t" none none] ++ Label.address "a" (some "first") ::
          [] ++ Label.address "a" (some "second") :: [])
        (Path.join ["w"] "labels.jsonl")).get_label_by_ref
        (LabelRef.address "a")
      = some (Label.address "a" (some "first")) :=
  C10_lookup_first_match ["w"] [Label.tx "t" none none] [] []
    (Label.address "a" (some "first")) (Label.address "a" (some "second"))
    (LabelRef.address "a") rfl rfl (by decide)

/-- Claim C5: with an empty collection and an absent backing file, `save`
returns success without touching the filesystem — no backing file and no
temporary file is created, whatever faults are armed. -/
theorem C5_save_noop_on_fresh (p : Path) (fs : FS) (f : Faults) (now : Nat)
    (h : fs p = none) :
    (LabelManager.mk [] p).save fs f now = (Except.ok (), fs) := by
  simp [LabelManager.save, FS.exists, h]

/-- Witness for C5: an all-faults save on a fresh store over an empty
filesystem is a no-op. -/
theorem C5_save_noop_on_fresh_witness :
    ((fun _ => none : FS) (["w", "labels.jsonl"] : Path) = none) ∧
    (LabelManager.mk [] ["w", "labels.jsonl"]).save (fun _ => none)
        ⟨true, true, true, true⟩ 0 = (Except.ok (), fun _ => none) :=
  ⟨rfl, C5_save_noop_on_fresh ["w", "labels.jsonl"] (fun _ => none)
      ⟨true, true, true, true⟩ 0 rfl⟩

/-- Claim C9: with an empty collection but an existing backing file, `save`
does not skip and does not delete the file: it runs the full atomic-replace
path, overwriting the backing file with the (empty) encoding, removing the
temporary file, and touching nothing else. -/
theorem C9_save_empty_overwrites_existing (dir : Path) (fs0 : FS)
    (st : FileState) (now : Nat) :
    ((LabelManager.mk [] (dir.join "labels.jsonl")).save
        (FS.set fs0 (dir.join "labels.jsonl") (some st)) noFaults now).1
      = Except.ok () ∧
    ((LabelManager.mk [] (dir.join "labels.jsonl")).save
        (FS.set fs0 (dir.join "labels.jsonl") (some st)) noFaults now).2
        (dir.join "labels.jsonl")
      = some (FileState.encoded []) ∧
    ((LabelManager.mk [] (dir.join "labels.jsonl")).save
        (FS.set fs0 (dir.join "labels.jsonl") (some st)) noFaults now).2
        (dir.join (tmpFileName now))
      = none ∧
    ∀ q, q ≠ dir.join "labels.jsonl" → q ≠ dir.join (tmpFileName now) →
      ((LabelManager.mk [] (dir.join "labels.jsonl")).save
          (FS.set fs0 (dir.join "labels.jsonl") (some st)) noFaults now).2 q
        = fs0 q := by
  have hne : dir.join "labels.jsonl" ≠ dir.join (tmpFileName now) :=
    Ne.symm (tmp_path_ne dir now)
  refine ⟨?_, ?_, ?_, ?_⟩
  · simp [LabelManager.save, FS.exists, FS.set_self, Path.parent_join, noFaults]
  · simp [LabelManager.save, FS.exists, FS.set_self, Path.parent_join,
      noFaults, FS.set, hne]
  · simp [LabelManager.save, FS.exists, FS.set_self, Path.parent_join,
      noFaults, FS.set]
  · intro q hq1 hq2
    simp [LabelManager.save, FS.exists, FS.set_self, Path.parent_join,
      noFaults, FS.set, hq1, hq2]

/-- Witness for C9: an empty store saved over an existing backing file. -/
theorem C9_save_empty_overwrites_existing_witness :
    ((LabelManager.mk [] (Path.join ["w"] "labels.jsonl")).save
        (FS.set (fun _ => none) (Path.join ["w"] "labels.jsonl")
          (some (FileState.encoded [Label.tx "t" none none]))) noFaults 0).2
        (Path.join ["w"] "labels.jsonl")
      = some (FileState.encoded []) ∧
    ((LabelManager.mk [] (Path.join ["w"] "labels.jsonl")).save
        (FS.set (fun _ => none) (Path.join ["w"] "labels.jsonl")
          (some (FileState.encoded [Label.tx "t" none none]))) noFaults 0).2
        ([] : Path)
      = (fun _ => none : FS) ([] : Path) :=
  ⟨(C9_save_empty_overwrites_existing ["w"] (fun _ => none)
      (FileState.encoded [Label.tx "t" none none]) 0).2.1,
   (C9_save_empty_overwrites_existing ["w"] (fun _ => none)
      (FileState.encoded [Label.tx "t" none none]) 0).2.2.2 []
      (by decide) (by decide)⟩

/-- Claim C2: saving a non-empty store built by `set_label` calls and then
opening a fresh store on the same directory yields exactly the original
records (here proved as full equality of the record list, which entails
equality as a set). -/
theorem C2_save_open_round_trip (dir : Path) (sets : List Label) (fs : FS)
    (now : Nat) (h : (buildStore dir sets).labels ≠ []) :
    ((buildStore dir sets).save fs noFaults now).1 = Except.ok () ∧
    LabelManager.new ((buildStore dir sets).save fs noFaults now).2 dir
      = Except.ok (buildStore dir sets) := by
  have hpath : (buildStore dir sets).file_path = dir.join "labels.jsonl" :=
    foldl_set_label_path sets _
  have hlm : buildStore dir sets
      = LabelManager.mk (buildStore dir sets).labels (dir.join "labels.jsonl") := by
    rw [← hpath]
  have hempty : List.isEmpty ((buildStore dir sets).labels) = false := by
    cases hl : (buildStore dir sets).labels with
    | nil => exact absurd hl h
    | cons x t => rfl
  have hne : dir.join "labels.jsonl" ≠ dir.join (tmpFileName now) :=
    Ne.symm (tmp_path_ne dir now)
  rw [hlm]
  constructor
  · simp [LabelManager.save, hempty, Path.parent_join, noFaults]
  · simp [LabelManager.save, hempty, Path.parent_join, noFaults,
      LabelManager.new, Labels.try_from_file, FS.set, hne]

/-- Witness for C2: one address label round-trips through save and open. -/
theorem C2_save_open_round_trip_witness :
    ((buildStore ["w"] [Label.address "a" (some "x")]).save (fun _ => none)
        noFaults 5).1 = Except.ok () ∧
    LabelManager.new
        ((buildStore ["w"] [Label.address "a" (some "x")]).save (fun _ => none)
          noFaults 5).2 ["w"]
      = Except.ok (buildStore ["w"] [Label.address "a" (some "x")]) :=
  C2_save_open_round_trip ["w"] [Label.address "a" (some "x")] (fun _ => none)
    5 (by decide)

/-- Claim C3: if the encode step fails, `save` returns an error and the
canonical backing file's prior contents — or prior absence — is unchanged;
moreover, under every fault pattern the canonical file is either untouched
or holds the complete new encoding put in place by the successful rename. -/
theorem C3_encode_failure_atomicity (dir : Path) (ls : Labels) (fs : FS)
    (now : Nat) (rn rm : Bool)
    (h : ls = [] → fs (dir.join "labels.jsonl") ≠ none) :
    ((LabelManager.mk ls (dir.join "labels.jsonl")).save fs
        ⟨false, true, rn, rm⟩ now).1
      = Except.error (BDKCliError.labelError
          ("Failed to export labels to temporary file "
            ++ (dir.join (tmpFileName now)).display)) ∧
    ((LabelManager.mk ls (dir.join "labels.jsonl")).save fs
        ⟨false, true, rn, rm⟩ now).2 (dir.join "labels.jsonl")
      = fs (dir.join "labels.jsonl") ∧
    ∀ g : Faults,
      ((LabelManager.mk ls (dir.join "labels.jsonl")).save fs g now).2
          (dir.join "labels.jsonl") = fs (dir.join "labels.jsonl") ∨
      (((LabelManager.mk ls (dir.join "labels.jsonl")).save fs g now).1
          = Except.ok () ∧
        ((LabelManager.mk ls (dir.join "labels.jsonl")).save fs g now).2
            (dir.join "labels.jsonl") = some (FileState.encoded ls)) := by
  have hne : dir.join "labels.jsonl" ≠ dir.join (tmpFileName now) :=
    Ne.symm (tmp_path_ne dir now)
  have hrun : (List.isEmpty ls
      && !(FS.exists fs (dir.join "labels.jsonl"))) = false := by
    cases hl : ls with
    | nil =>
        have hfs := h hl
        cases hfp : fs (dir.join "labels.jsonl") with
        | none => exact absurd hfp hfs
        | some st => simp [FS.exists, hfp]
    | cons x t => rfl
  refine ⟨?_, ?_, ?_⟩
  · simp [LabelManager.save, hrun, Path.parent_join]
  · simp [LabelManager.save, hrun, Path.parent_join, FS.set, hne]
  · intro g
    rcases g with ⟨c, e, r', m⟩
    cases c <;> cases e <;> cases r' <;> cases m <;>
      simp [LabelManager.save, hrun, Path.parent_join, FS.set, hne]

/-- Witness for C3: a failing encode on a one-record store over an empty
filesystem; the canonical path stays absent, and with no faults the
canonical path receives the new encoding. -/
theorem C3_encode_failure_atomicity_witness :
    ((LabelManager.mk [Label.tx "t" none none]
        (Path.join ["w"] "labels.jsonl")).save (fun _ => none)
        ⟨false, true, false, false⟩ 1).1
      = Except.error (BDKCliError.labelError
          ("Failed to export labels to temporary file "
            ++ (Path.join ["w"] (tmpFileName 1)).display)) ∧
    ((LabelManager.mk [Label.tx "t" none none]
        (Path.join ["w"] "labels.jsonl")).save (fun _ => none)
        ⟨false, true, false, false⟩ 1).2 (Path.join ["w"] "labels.jsonl")
      = (fun _ => none : FS) (Path.join ["w"] "labels.jsonl") ∧
    (((LabelManager.mk [Label.tx "t" none none]
        (Path.join ["w"] "labels.jsonl")).save (fun _ => none) noFaults 1).2
        (Path.join ["w"] "labels.jsonl")
      = (fun _ => none : FS) (Path.join ["w"] "labels.jsonl") ∨
      (((LabelManager.mk [Label.tx "t" none none]
          (Path.join ["w"] "labels.jsonl")).save (fun _ => none) noFaults 1).1
          = Except.ok () ∧
        ((LabelManager.mk [Label.tx "t" none none]
            (Path.join ["w"] "labels.jsonl")).save (fun _ => none)
            noFaults 1).2 (Path.join ["w"] "labels.jsonl")
          = some (FileState.encoded [Label.tx "t" none none]))) :=
  ⟨(C3_encode_failure_atomicity ["w"] [Label.tx "t" none none] (fun _ => none)
      1 false false (by simp)).1,
   (C3_encode_failure_atomicity ["w"] [Label.tx "t" none none] (fun _ => none)
      1 false false (by simp)).2.1,
   (C3_encode_failure_atomicity ["w"] [Label.tx "t" none none] (fun _ => none)
      1 false false (by simp)).2.2 noFaults⟩

/-- Claim C7: when the rename fails, `save` attempts best-effort removal of
the temporary file and returns the rename error; a failure of the removal is
swallowed — the error returned is the same rename error either way — and
nothing but the temporary path is affected. -/
theorem C7_rename_failure (dir : Path) (l : Label) (ls : Labels) (fs : FS)
    (now : Nat) (rm : Bool) :
    ((LabelManager.mk (l :: ls) (dir.join "labels.jsonl")).save fs
        ⟨false, false, true, rm⟩ now).1
      = Except.error (BDKCliError.labelError
          ("Failed to rename temporary label file "
            ++ (dir.join (tmpFileName now)).display ++ " to "
            ++ (dir.join "labels.jsonl").display)) ∧
    ((LabelManager.mk (l :: ls) (dir.join "labels.jsonl")).save fs
        ⟨false, false, true, rm⟩ now).2 (dir.join (tmpFileName now))
      = (if rm then some (FileState.encoded (l :: ls)) else none) ∧
    ∀ q, q ≠ dir.join (tmpFileName now) →
      ((LabelManager.mk (l :: ls) (dir.join "labels.jsonl")).save fs
          ⟨false, false, true, rm⟩ now).2 q = fs q := by
  refine ⟨?_, ?_, ?_⟩
  · cases rm <;> simp [LabelManager.save, Path.parent_join]
  · cases rm <;>
      simp [LabelManager.save, Path.parent_join, FS.set_self, FS.set]
  · intro q hq
    cases rm <;>
      simp [LabelManager.save, Path.parent_join, FS.set, hq]

/-- Witness for C7: a failing rename with removal also failing still reports
the rename error, keeps the temporary file, and leaves other paths alone. -/
theorem C7_rename_failure_witness :
    ((LabelManager.mk [Label.tx "t" none none]
        (Path.join ["w"] "labels.jsonl")).save (fun _ => none)
        ⟨false, false, true, true⟩ 3).1
      = Except.error (BDKCliError.labelError
          ("Failed to rename temporary label file "
            ++ (Path.join ["w"] (tmpFileName 3)).display ++ " to "
            ++ (Path.join ["w"] "labels.jsonl").display)) ∧
    ((LabelManager.mk [Label.tx "t" none none]
        (Path.join ["w"] "labels.jsonl")).save (fun _ => none)
        ⟨false, false, true, true⟩ 3).2 (Path.join ["w"] (tmpFileName 3))
      = (if true then some (FileState.encoded [Label.tx "t" none none])
          else none) ∧
    ((LabelManager.mk [Label.tx "t" none none]
        (Path.join ["w"] "labels.jsonl")).save (fun _ => none)
        ⟨false, false, true, true⟩ 3).2 ([] : Path)
      = (fun _ => none : FS) ([] : Path) :=
  ⟨(C7_rename_failure ["w"] (Label.tx "t" none none) [] (fun _ => none)
      3 true).1,
   (C7_rename_failure ["w"] (Label.tx "t" none none) [] (fun _ => none)
      3 true).2.1,
   (C7_rename_failure ["w"] (Label.tx "t" none none) [] (fun _ => none)
      3 true).2.2 [] (by decide)⟩

/-- Claim C4: construction resolves `<dir>/labels.jsonl` and decodes it — an
absent file yields an empty store with success, a complete encoding yields
its records, and malformed content or a read error other than not-found
yields a load error identifying the path and the underlying cause. -/
theorem C4_open_classification (fs : FS) (dir : Path) :
    (fs (dir.join "labels.jsonl") = none →
        LabelManager.new fs dir
          = Except.ok ⟨[], dir.join "labels.jsonl"⟩) ∧
    (∀ ls, fs (dir.join "labels.jsonl") = some (FileState.encoded ls) →
        LabelManager.new fs dir
          = Except.ok ⟨ls, dir.join "labels.jsonl"⟩) ∧
    (fs (dir.join "labels.jsonl") = some FileState.malformed →
        LabelManager.new fs dir
          = Except.error (BDKCliError.labelError
              ("Failed to load labels from "
                ++ (dir.join "labels.jsonl").display ++ ": "
                ++ ParseError.msg ParseError.malformedRecord))) ∧
    ∀ k, k ≠ ErrorKind.notFound →
      fs (dir.join "labels.jsonl") = some (FileState.unreadable k) →
      LabelManager.new fs dir
        = Except.error (BDKCliError.labelError
            ("Failed to load labels from "
              ++ (dir.join "labels.jsonl").display ++ ": "
              ++ ParseError.msg (ParseError.fileReadError k))) := by
  refine ⟨?_, ?_, ?_, ?_⟩
  · intro h
    simp [LabelManager.new, Labels.try_from_file, h]
  · intro ls h
    simp [LabelManager.new, Labels.try_from_file, h]
  · intro h
    simp [LabelManager.new, Labels.try_from_file, h]
  · intro k hk h
    cases k with
    | notFound => exact absurd rfl hk
    | permissionDenied => simp [LabelManager.new, Labels.try_from_file, h]
    | other => simp [LabelManager.new, Labels.try_from_file, h]

/-- Witness for C4: an absent file opens as an empty store; a malformed file
makes open fail with a load error naming the path and the cause. -/
theorem C4_open_classification_witness :
    LabelManager.new (fun _ => none) ["w"]
      = Except.ok ⟨[], Path.join ["w"] "labels.jsonl"⟩ ∧
    LabelManager.new
        (fun q => if q = Path.join ["w"] "labels.jsonl"
          then some FileState.malformed else none) ["w"]
      = Except.error (BDKCliError.labelError
          ("Failed to load labels from "
            ++ (Path.join ["w"] "labels.jsonl").display ++ ": "
            ++ ParseError.msg ParseError.malformedRecord)) :=
  ⟨(C4_open_classification (fun _ => none) ["w"]).1 rfl,
   (C4_open_classification
      (fun q => if q = Path.join ["w"] "labels.jsonl"
        then some FileState.malformed else none) ["w"]).2.2.1 (by decide)⟩

end BdkLabels
